import Mathlib

/-!
Shallow embedding of `lutris/gui/config/boxes.py` (the `ConfigBox` option-rendering
and override-resolution engine) together with theorems checking the natural-language
specification of that module.

Python dictionaries keyed by option names are embedded as association lists
(`Dict`), widget style providers as a `WrapperStyle` record holding the two CSS
properties the code sets, and the GTK widget tree as a one-level `Widget` tree of
option rows and section frames (the code builds sections exactly one level deep).
External collaborators (the widget generator, application settings) are parameters.
-/

set_option maxHeartbeats 1000000

namespace LutrisBoxes

/-- Association-list dictionary keyed by strings, standing in for a Python dict. -/
abbrev Dict (V : Type) : Type := List (String × V)

/-- `d.get(k)`: first binding of `k`, if any. -/
def dget {V : Type} (m : Dict V) (k : String) : Option V :=
  match m with
  | [] => none
  | (a, b) :: t => if a = k then some b else dget t k

/-- `d.pop(k, None)` viewed as the resulting dictionary: all bindings of `k` removed. -/
def derase {V : Type} (m : Dict V) (k : String) : Dict V :=
  match m with
  | [] => []
  | (a, b) :: t => if a = k then derase t k else (a, b) :: derase t k

/-- `d[k] = v`: bind `k` to `v`, shadowing prior bindings. -/
def dinsert {V : Type} (m : Dict V) (k : String) (v : V) : Dict V :=
  (k, v) :: derase m k

/-- `k in d`. -/
def dcontains {V : Type} (m : Dict V) (k : String) : Bool :=
  (dget m k).isSome

@[simp] theorem dget_dinsert_self {V : Type} (m : Dict V) (k : String) (v : V) :
    dget (dinsert m k v) k = some v := by
  simp [dinsert, dget]

theorem dget_derase {V : Type} (m : Dict V) (k k' : String) :
    dget (derase m k) k' = if k' = k then none else dget m k' := by
  induction m with
  | nil => simp only [derase, dget]; split <;> rfl
  | cons p t ih =>
    obtain ⟨a, b⟩ := p
    by_cases hak : a = k
    · subst hak
      by_cases hk : k' = a
      · subst hk
        simpa [derase, dget] using ih
      · simp [derase, dget, hk, Ne.symm hk, ih]
    · by_cases hak' : a = k'
      · subst hak'
        simp [derase, dget, hak]
      · simp [derase, dget, hak, hak', ih]

theorem dget_dinsert_ne {V : Type} (m : Dict V) (k k' : String) (v : V) (h : k' ≠ k) :
    dget (dinsert m k v) k' = dget m k' := by
  simp [dinsert, dget, Ne.symm h, dget_derase, h]

theorem dget_append {V : Type} (m n : Dict V) (k : String) :
    dget (m ++ n) k = match dget m k with
      | some v => some v
      | none => dget n k := by
  induction m with
  | nil => simp [dget]
  | cons p t ih =>
    obtain ⟨a, b⟩ := p
    by_cases hak : a = k <;> simp [dget, hak, ih]

theorem derase_derase {V : Type} (m : Dict V) (k : String) :
    derase (derase m k) k = derase m k := by
  induction m with
  | nil => rfl
  | cons p t ih =>
    obtain ⟨a, b⟩ := p
    by_cases hak : a = k <;> simp [derase, hak, ih]

theorem derase_dinsert {V : Type} (m : Dict V) (k : String) (v : V) :
    derase (dinsert m k v) k = derase m k := by
  simp [dinsert, derase, derase_derase]

theorem dget_eq_none_of_not_contains {V : Type} (m : Dict V) (k : String)
    (h : dcontains m k = false) : dget m k = none := by
  unfold dcontains at h
  rcases hd : dget m k with _ | w
  · rfl
  · rw [hd] at h; simp at h

theorem derase_eq_self_of_not_contains {V : Type} (m : Dict V) (k : String)
    (h : dcontains m k = false) : derase m k = m := by
  induction m with
  | nil => rfl
  | cons p t ih =>
    obtain ⟨a, b⟩ := p
    by_cases hak : a = k
    · simp [dcontains, dget, hak] at h
    · simp only [dcontains, dget, if_neg hak] at h
      simp [derase, hak, ih h]

/-- The two CSS properties `ConfigBox.set_style_property` ever writes on an option
wrapper; a freshly generated wrapper carries neither. -/
structure WrapperStyle where
  fontWeight : String
  fontStyle : String
  deriving DecidableEq, Repr

/-- Style of a freshly generated wrapper: no bold, no italic. -/
def defaultWrapperStyle : WrapperStyle := { fontWeight := "normal", fontStyle := "normal" }

/-- `ConfigBox.set_style_property`: attach a CSS provider setting one property; at
equal GTK priority the latest provider wins per property, so this overwrites the
single affected property and leaves the other untouched. -/
def set_style_property (property value : String) (wrapper : WrapperStyle) : WrapperStyle :=
  if property = "font-weight" then { wrapper with fontWeight := value }
  else if property = "font-style" then { wrapper with fontStyle := value }
  else wrapper

/-- A literal descriptor field, or a zero-argument producer evaluated at render time
(`callable(option.get(...))` in the source). -/
inductive FieldVal (α : Type) where
  | lit (a : α)
  | producer (f : Unit → α)

/-- Whether the field is still an unevaluated producer. -/
def FieldVal.isProducer {α : Type} : FieldVal α → Bool
  | .producer _ => true
  | .lit _ => false

/-- Read the field's value, running the producer if it is one. -/
def FieldVal.resolve {α : Type} : FieldVal α → α
  | .lit a => a
  | .producer f => f ()

/-- The fields of one option descriptor that `ConfigBox` reads. Optional fields are
`Option`s; `option["x"]` on a missing field is Python's `KeyError`. -/
structure OptionDict (V : Type) where
  option : Option String := none
  type : Option String := none
  label : Option String := none
  help : Option String := none
  scope : Option (List String) := none
  sectionName : Option String := none
  advanced : Bool := false
  visible : Option (FieldVal Bool) := none
  choices : Option (FieldVal (List String)) := none
  condition : Option (FieldVal Bool) := none
  warning : Option String := none
  error : Option String := none

/-- What `WidgetGenerator.generate_widget` reports back for one row. -/
structure GenResult (V : Type) where
  defaultValue : Option V
  tooltipDefault : Option String
  errorWidgets : Nat

/-- The opaque widget generator: given the (resolved) descriptor and the current
value it either renders a control and reports its default, or raises. -/
abbrev WidgetGen (V : Type) : Type := OptionDict V → Option V → Except String (GenResult V)

/-- One rendered option row (the `option_container` built per descriptor), with the
data the engine stores on it and, as specification ghosts, the value/default pair
and the descriptor actually handed to the widget generator. -/
structure Row (V : Type) where
  key : String
  label : String
  helptext : String
  advanced : Bool
  style : WrapperStyle
  value : Option V
  default : Option V
  sensitive : Bool
  resetVisible : Bool
  errorWidgetCount : Nat
  passedOption : OptionDict V
  visibleFlag : Bool

/-- A child of the `ConfigBox`: a bare option row or a `SectionFrame` holding the
consecutive rows of one section (the renderer nests sections exactly one level). -/
inductive Widget (V : Type) where
  | row (r : Row V)
  | frame (sectionName : String) (visible : Bool) (rows : List (Row V))

/-- Instrumentation of externally visible render-pass effects: a producer field
being evaluated, and the advanced-options application setting being read. -/
inductive RenderEvent where
  | resolvedField (key : Option String) (field : String)
  | readAdvancedSetting
  deriving DecidableEq

/-- The `ConfigBox` state: the selected config section's effective and raw maps, the
merged ancestor layers behind them, the per-key widget bookkeeping, the validation
presenters with their evaluation counts, visibility-engine state, the child widget
tree, and logs of rebuilds and caught per-row errors. -/
structure ConfigBoxState (V : Type) where
  config_level : String
  options : List (OptionDict V)
  config : Dict V
  raw_config : Dict V
  ancestors : Dict V
  reset_buttons : Dict Bool
  wrappers : Dict WrapperStyle
  warning_boxes : List (String × Nat)
  error_boxes : List (String × Nat)
  advanced_visibility : Bool
  filter : String
  children : List (Widget V)
  rebuilds : List String
  log : List (Option String)
  noOptionsShown : Bool

/-- One presenter re-evaluation (`box.update_warning(self.lutris_config)`). -/
def bumpEval (p : String × Nat) : String × Nat := (p.1, p.2 + 1)

/-- `ConfigBox.update_warnings`: re-evaluate every attached warning box, then every
attached error box, for all keys. -/
def update_warnings {V : Type} (s : ConfigBoxState V) : ConfigBoxState V :=
  { s with
    warning_boxes := s.warning_boxes.map bumpEval
    error_boxes := s.error_boxes.map bumpEval }

/-- `ConfigBox.on_option_changed`: write the new value into both the raw and the
effective config, then, when the key has a rendered row, reveal its reset button
and set bold weight on its wrapper, and finally re-run all validation presenters. -/
def on_option_changed {V : Type} (s : ConfigBoxState V) (option_name : String) (value : V) :
    ConfigBoxState V :=
  let s1 : ConfigBoxState V :=
    { s with
      raw_config := dinsert s.raw_config option_name value
      config := dinsert s.config option_name value }
  let s2 : ConfigBoxState V :=
    match dget s1.reset_buttons option_name with
    | some _ => { s1 with reset_buttons := dinsert s1.reset_buttons option_name true }
    | none => s1
  let s3 : ConfigBoxState V :=
    match dget s2.wrappers option_name with
    | some w =>
      { s2 with
        wrappers := dinsert s2.wrappers option_name (set_style_property "font-weight" "bold" w) }
    | none => s2
  update_warnings s3

/-- Modelled from the spec: `LutrisConfig.update_cascaded_config` is not part of the
source under verification; per the spec's Layered Config Store contract the
effective config is recomputed as the raw (current-layer) bindings overriding the
merged ancestor layers. -/
def update_cascaded_config {V : Type} (s : ConfigBoxState V) : ConfigBoxState V :=
  { s with config := s.raw_config ++ s.ancestors }

/-- `ConfigBox.on_reset_button_clicked`: capture the current effective value
(`KeyError`, i.e. `none`, when the key has no effective value), hide the reset
button, clear the bold weight, drop the key from the raw config, recompute the
cascade, and rebuild the row's control in place (recording the rebuild and
re-running the presenters) only when the recomputed value changed. -/
def on_reset_button_clicked {V : Type} [DecidableEq V] (s : ConfigBoxState V)
    (option_key : String) : Option (ConfigBoxState V) :=
  match dget s.config option_key with
  | none => none
  | some current_value =>
    let s1 : ConfigBoxState V :=
      { s with
        reset_buttons := dinsert s.reset_buttons option_key false
        wrappers :=
          dinsert s.wrappers option_key
            (set_style_property "font-weight" "normal"
              ((dget s.wrappers option_key).getD defaultWrapperStyle))
        raw_config := derase s.raw_config option_key }
    let s2 := update_cascaded_config s1
    let reset_value := dget s2.config option_key
    if some current_value = reset_value then some s2
    else some (update_warnings { s2 with rebuilds := option_key :: s2.rebuilds })

theorem on_option_changed_raw_config {V : Type} (s : ConfigBoxState V) (k : String) (v : V) :
    (on_option_changed s k v).raw_config = dinsert s.raw_config k v := by
  rcases hb : dget s.reset_buttons k with _ | b <;> rcases hw : dget s.wrappers k with _ | w <;>
    simp [on_option_changed, update_warnings, hb, hw]

theorem on_option_changed_config {V : Type} (s : ConfigBoxState V) (k : String) (v : V) :
    (on_option_changed s k v).config = dinsert s.config k v := by
  rcases hb : dget s.reset_buttons k with _ | b <;> rcases hw : dget s.wrappers k with _ | w <;>
    simp [on_option_changed, update_warnings, hb, hw]

theorem on_option_changed_ancestors {V : Type} (s : ConfigBoxState V) (k : String) (v : V) :
    (on_option_changed s k v).ancestors = s.ancestors := by
  rcases hb : dget s.reset_buttons k with _ | b <;> rcases hw : dget s.wrappers k with _ | w <;>
    simp [on_option_changed, update_warnings, hb, hw]

/-- Concrete `ConfigBox` over `Nat` values used to instantiate the theorems:
`alpha` is overridden at this layer (raw value 2 over ancestor value 1), `beta`
comes from an ancestor layer. -/
def exState : ConfigBoxState Nat :=
  { config_level := "game"
    options := []
    config := [("alpha", 2), ("beta", 7)]
    raw_config := [("alpha", 2)]
    ancestors := [("alpha", 1), ("beta", 7)]
    reset_buttons := [("alpha", true), ("beta", false)]
    wrappers := [("alpha", { fontWeight := "bold", fontStyle := "normal" }),
                 ("beta", defaultWrapperStyle)]
    warning_boxes := [("alpha", 1)]
    error_boxes := [("beta", 1)]
    advanced_visibility := false
    filter := ""
    children := []
    rebuilds := []
    log := []
    noOptionsShown := false }

/-- C2: `on_option_changed(k, v)` writes `v` into both the raw and the effective
config at `k`, makes `k`'s reset button visible, sets bold weight on `k`'s wrapper
(leaving its font style alone), and re-evaluates every attached warning and error
presenter, for all keys. -/
theorem on_option_changed_effects {V : Type} (s : ConfigBoxState V) (k : String) (v : V)
    (b : Bool) (w : WrapperStyle)
    (hb : dget s.reset_buttons k = some b) (hw : dget s.wrappers k = some w) :
    dget (on_option_changed s k v).raw_config k = some v ∧
    dget (on_option_changed s k v).config k = some v ∧
    dget (on_option_changed s k v).reset_buttons k = some true ∧
    dget (on_option_changed s k v).wrappers k =
      some (set_style_property "font-weight" "bold" w) ∧
    (on_option_changed s k v).warning_boxes = s.warning_boxes.map bumpEval ∧
    (on_option_changed s k v).error_boxes = s.error_boxes.map bumpEval := by
  simp [on_option_changed, update_warnings, hb, hw, dget_dinsert_self]

theorem on_option_changed_effects_witness :
    dget exState.reset_buttons "beta" = some false ∧
    dget exState.wrappers "beta" = some defaultWrapperStyle ∧
    dget (on_option_changed exState "beta" 9).reset_buttons "beta" = some true ∧
    dget (on_option_changed exState "beta" 9).wrappers "beta" =
      some (set_style_property "font-weight" "bold" defaultWrapperStyle) :=
  ⟨by decide, by decide,
   (on_option_changed_effects exState "beta" 9 false defaultWrapperStyle
      (by decide) (by decide)).2.2.1,
   (on_option_changed_effects exState "beta" 9 false defaultWrapperStyle
      (by decide) (by decide)).2.2.2.1⟩

/-- C10: `on_option_changed(k, v)` on a key with no rendered row (no reset button
and no wrapper registered) is total: it still writes `v` into both configs and
re-runs all validation presenters, and leaves the reset-button and wrapper
bookkeeping untouched. -/
theorem on_option_changed_unrendered_key_safe {V : Type} (s : ConfigBoxState V)
    (k : String) (v : V)
    (hb : dget s.reset_buttons k = none) (hw : dget s.wrappers k = none) :
    dget (on_option_changed s k v).raw_config k = some v ∧
    dget (on_option_changed s k v).config k = some v ∧
    (on_option_changed s k v).reset_buttons = s.reset_buttons ∧
    (on_option_changed s k v).wrappers = s.wrappers ∧
    (on_option_changed s k v).warning_boxes = s.warning_boxes.map bumpEval ∧
    (on_option_changed s k v).error_boxes = s.error_boxes.map bumpEval := by
  simp [on_option_changed, update_warnings, hb, hw, dget_dinsert_self]

theorem on_option_changed_unrendered_key_safe_witness :
    dget exState.reset_buttons "gamma" = none ∧
    dget exState.wrappers "gamma" = none ∧
    dget (on_option_changed exState "gamma" 4).raw_config "gamma" = some 4 ∧
    (on_option_changed exState "gamma" 4).reset_buttons = exState.reset_buttons :=
  ⟨by decide, by decide,
   (on_option_changed_unrendered_key_safe exState "gamma" 4 (by decide) (by decide)).1,
   (on_option_changed_unrendered_key_safe exState "gamma" 4 (by decide) (by decide)).2.2.1⟩

/-- C3: the reset handler removes `k` from the raw config, hides the reset button,
clears the bold weight, and recomputes the effective config from the remaining raw
values over the ancestor layers; when the recomputed value equals the captured
pre-reset value it stops (no rebuild, no re-validation), otherwise it rebuilds only
this row's control in place (the widget tree is untouched either way, only the
rebuild log grows) and re-runs the validation presenters. -/
theorem on_reset_button_clicked_effects {V : Type} [DecidableEq V] (s : ConfigBoxState V)
    (k : String) (cur : V) (h : dget s.config k = some cur) :
    ∃ s', on_reset_button_clicked s k = some s' ∧
      dcontains s'.raw_config k = false ∧
      dget s'.reset_buttons k = some false ∧
      (dget s'.wrappers k).map WrapperStyle.fontWeight = some "normal" ∧
      s'.config = derase s.raw_config k ++ s.ancestors ∧
      s'.children = s.children ∧
      (dget s'.config k = some cur →
        s'.rebuilds = s.rebuilds ∧ s'.warning_boxes = s.warning_boxes ∧
        s'.error_boxes = s.error_boxes) ∧
      (dget s'.config k ≠ some cur →
        s'.rebuilds = k :: s.rebuilds ∧
        s'.warning_boxes = s.warning_boxes.map bumpEval ∧
        s'.error_boxes = s.error_boxes.map bumpEval) := by
  simp only [on_reset_button_clicked, h]
  split
  · next hc =>
    refine ⟨_, rfl, ?_, ?_, ?_, ?_, ?_, ?_, ?_⟩ <;>
      simp [update_cascaded_config, dcontains, dget_derase, dget_dinsert_self,
        set_style_property]
    · simpa [update_cascaded_config] using hc.symm
  · next hc =>
    refine ⟨_, rfl, ?_, ?_, ?_, ?_, ?_, ?_, ?_⟩ <;>
      simp [update_cascaded_config, update_warnings, dcontains, dget_derase,
        dget_dinsert_self, set_style_property]
    · intro heq
      exact absurd (by simpa [update_cascaded_config] using heq.symm) hc

theorem on_reset_button_clicked_effects_witness :
    dget exState.config "alpha" = some 2 ∧
    (∃ s', on_reset_button_clicked exState "alpha" = some s' ∧
      dcontains s'.raw_config "alpha" = false ∧
      dget s'.reset_buttons "alpha" = some false ∧
      (dget s'.wrappers "alpha").map WrapperStyle.fontWeight = some "normal" ∧
      s'.config = derase exState.raw_config "alpha" ++ exState.ancestors ∧
      s'.children = exState.children ∧
      (dget s'.config "alpha" = some 2 →
        s'.rebuilds = exState.rebuilds ∧ s'.warning_boxes = exState.warning_boxes ∧
        s'.error_boxes = exState.error_boxes) ∧
      (dget s'.config "alpha" ≠ some 2 →
        s'.rebuilds = "alpha" :: exState.rebuilds ∧
        s'.warning_boxes = exState.warning_boxes.map bumpEval ∧
        s'.error_boxes = exState.error_boxes.map bumpEval)) :=
  ⟨by decide, on_reset_button_clicked_effects exState "alpha" 2 (by decide)⟩

/-- Effective value at `k` observed after `on_option_changed(k, v)` followed by
`on_reset_button_clicked(k)`; `none` when the reset handler raises. -/
def edit_reset_effective {V : Type} [DecidableEq V] (s : ConfigBoxState V) (k : String)
    (v : V) : Option (Option V) :=
  (on_reset_button_clicked (on_option_changed s k v) k).map (fun t => dget t.config k)

/-- C4 counterexample: with `alpha` already overridden at this layer (raw value 2,
ancestor value 1) and no ancestor change, edit (to 5) followed by reset yields the
ancestor value 1, not the pre-edit effective value 2 — the round trip does not
restore the pre-edit value. -/
theorem edit_reset_roundtrip_counterexample :
    edit_reset_effective exState "alpha" 5 = some (some 1) ∧
    dget exState.config "alpha" = some 2 ∧
    edit_reset_effective exState "alpha" 5 ≠ some (dget exState.config "alpha") := by
  refine ⟨?_, ?_, ?_⟩ <;> decide

/-- C4 (amended): when `k` is not already overridden at this layer before the edit
(and the cached effective value agrees with the cascade), `on_option_changed(k, v)`
followed by `on_reset_button_clicked(k)` — with no ancestor change in between —
restores the effective value at `k` and leaves `k` absent from the raw config. -/
theorem edit_reset_roundtrip_amended {V : Type} [DecidableEq V] (s : ConfigBoxState V)
    (k : String) (v : V)
    (h1 : dcontains s.raw_config k = false)
    (h2 : dget s.config k = dget (s.raw_config ++ s.ancestors) k) :
    ∃ s', on_reset_button_clicked (on_option_changed s k v) k = some s' ∧
      dget s'.config k = dget s.config k ∧
      dcontains s'.raw_config k = false := by
  have hget : dget (on_option_changed s k v).config k = some v := by
    rw [on_option_changed_config, dget_dinsert_self]
  have hraw : derase (on_option_changed s k v).raw_config k = s.raw_config := by
    rw [on_option_changed_raw_config, derase_dinsert, derase_eq_self_of_not_contains _ _ h1]
  simp only [on_reset_button_clicked, hget]
  split
  · next hc =>
    refine ⟨_, rfl, ?_, ?_⟩ <;>
      simp [update_cascaded_config, hraw, on_option_changed_ancestors, dcontains,
        dget_derase, h2, derase_eq_self_of_not_contains _ _ h1,
        dget_eq_none_of_not_contains _ _ h1]
  · next hc =>
    refine ⟨_, rfl, ?_, ?_⟩ <;>
      simp [update_cascaded_config, update_warnings, hraw, on_option_changed_ancestors,
        dcontains, dget_derase, h2, derase_eq_self_of_not_contains _ _ h1,
        dget_eq_none_of_not_contains _ _ h1]

theorem edit_reset_roundtrip_amended_witness :
    dcontains exState.raw_config "beta" = false ∧
    dget exState.config "beta" = dget (exState.raw_config ++ exState.ancestors) "beta" ∧
    (∃ s', on_reset_button_clicked (on_option_changed exState "beta" 9) "beta" = some s' ∧
      dget s'.config "beta" = dget exState.config "beta" ∧
      dcontains s'.raw_config "beta" = false) :=
  ⟨by decide, by decide, edit_reset_roundtrip_amended exState "beta" 9 (by decide) (by decide)⟩

/-- The layer-state invariant: every key present in the raw config has an effective
value. -/
def raw_subset_effective {V : Type} (s : ConfigBoxState V) : Prop :=
  ∀ k, dcontains s.raw_config k = true → dcontains s.config k = true

/-- C9: the invariant `raw.keys() ⊆ effective.keys()` is preserved by both engine
mutations: `on_option_changed` writes the key into both maps, and the reset handler
only removes the key from raw and then recomputes the effective config as raw over
the ancestor layers. -/
theorem raw_subset_effective_preserved {V : Type} [DecidableEq V] (s : ConfigBoxState V)
    (k : String) (v : V) (h : raw_subset_effective s) :
    raw_subset_effective (on_option_changed s k v) ∧
    (∀ s', on_reset_button_clicked s k = some s' → raw_subset_effective s') := by
  constructor
  · intro k' hk'
    rw [on_option_changed_raw_config] at hk'
    rw [on_option_changed_config]
    by_cases hkk : k' = k
    · subst hkk
      simp [dcontains, dget_dinsert_self]
    · rw [dcontains, dget_dinsert_ne _ _ _ _ hkk] at hk'
      rw [dcontains, dget_dinsert_ne _ _ _ _ hkk]
      exact h k' hk'
  · intro s' hs'
    rcases hc : dget s.config k with _ | cur
    · simp only [on_reset_button_clicked, hc] at hs'
      exact Option.noConfusion hs'
    · simp only [on_reset_button_clicked, hc] at hs'
      have hsub : ∀ k', dcontains (derase s.raw_config k) k' = true →
          dcontains (derase s.raw_config k ++ s.ancestors) k' = true := by
        intro k' hk'
        rw [dcontains] at hk' ⊢
        rw [dget_append]
        rcases hd : dget (derase s.raw_config k) k' with _ | w
        · rw [hd] at hk'; simp at hk'
        · simp
      split at hs' <;> cases hs' <;> intro k' hk' <;>
        simp only [update_cascaded_config, update_warnings] at hk' ⊢ <;>
        exact hsub k' hk'

theorem raw_subset_effective_preserved_witness :
    raw_subset_effective exState ∧
    raw_subset_effective (on_option_changed exState "alpha" 3) := by
  have hsub : raw_subset_effective exState := by
    intro k' h'
    by_cases hk : "alpha" = k'
    · simp [exState, dcontains, dget, hk]
    · simp [exState, dcontains, dget, hk] at h'
  exact ⟨hsub, (raw_subset_effective_preserved exState "alpha" 3 hsub).1⟩

/-- Outcome of processing one descriptor inside the render loop's try-block:
skipped without a row (scope or visibility), failed before the section bookkeeping
(missing `option` key, or missing `type` under a callable `choices`), failed after
it (widget generation or missing `label`), or a built row. -/
inductive RowOutcome (V : Type) where
  | skipped
  | earlyFailed (logKey : Option String)
  | lateFailed (logKey : String)
  | ok (r : Row V)

/-- Resolve a callable `visible` field in place
(`option["visible"] = option["visible"]()`), reporting the field evaluated. -/
def resolveVisible {V : Type} (d : OptionDict V) : OptionDict V × List String :=
  match d.visible with
  | some (.producer f) => ({ d with visible := some (.lit (f ())) }, ["visible"])
  | _ => (d, [])

/-- The `not option["visible"]` guard; a descriptor without a `visible` field is
visible. -/
def visibleValue {V : Type} (d : OptionDict V) : Bool :=
  match d.visible with
  | some fv => fv.resolve
  | none => true

/-- Resolve a callable `choices` field, except on a `choice_with_search` descriptor
(whose callable is handed to the generator unevaluated); reading `option["type"]`
raises (`none` here) when that field is missing. -/
def resolveChoices {V : Type} (d : OptionDict V) : Option (OptionDict V × List String) :=
  match d.choices with
  | some (.producer f) =>
    match d.type with
    | none => none
    | some t =>
      if t = "choice_with_search" then some (d, [])
      else some ({ d with choices := some (.lit (f ())) }, ["choices"])
  | _ => some (d, [])

/-- Resolve a callable `condition` field in place. -/
def resolveCondition {V : Type} (d : OptionDict V) : OptionDict V × List String :=
  match d.condition with
  | some (.producer f) => ({ d with condition := some (.lit (f ())) }, ["condition"])
  | _ => (d, [])

/-- The `condition` gate for greying out: a row stays sensitive unless a present
`condition` resolved to false. -/
def conditionValue {V : Type} (d : OptionDict V) : Bool :=
  match d.condition with
  | some fv => fv.resolve
  | none => true

/-- The body of the render loop's try-block after the scope check: value lookup,
producer resolution, widget generation and row assembly, with every Python
exception point mapped to a failure outcome; also returns the names of the producer
fields evaluated, in evaluation order. -/
def buildRowBody {V : Type} [DecidableEq V] (gen : WidgetGen V) (config raw : Dict V)
    (d : OptionDict V) : RowOutcome V × List String :=
  match d.option with
    | none => (.earlyFailed none, [])
    | some option_key =>
      let value := dget config option_key
      let rv := resolveVisible d
      if visibleValue rv.1 = false then (.skipped, rv.2)
      else
        match resolveChoices rv.1 with
        | none => (.earlyFailed (some option_key), rv.2)
        | some rc =>
          let rcnd := resolveCondition rc.1
          let evs := rv.2 ++ rc.2 ++ rcnd.2
          match gen rcnd.1 value with
          | .error _ => (.lateFailed option_key, evs)
          | .ok res =>
            match rcnd.1.label with
            | none => (.lateFailed option_key, evs)
            | some label =>
              (.ok {
                key := option_key
                label := label
                helptext := rcnd.1.help.getD ""
                advanced := rcnd.1.advanced
                style :=
                  if dcontains raw option_key then
                    set_style_property "font-weight" "bold" defaultWrapperStyle
                  else if value ≠ res.defaultValue then
                    set_style_property "font-style" "italic" defaultWrapperStyle
                  else defaultWrapperStyle
                value := value
                default := res.defaultValue
                sensitive := conditionValue rcnd.1
                resetVisible := dcontains raw option_key
                errorWidgetCount := res.errorWidgets
                passedOption := rcnd.1
                visibleFlag := true }, evs)

/-- The full try-block body for one descriptor: skip when a present `scope`
excludes the current config level, otherwise run the row builder. -/
def buildRow {V : Type} [DecidableEq V] (gen : WidgetGen V) (config raw : Dict V)
    (level : String) (d : OptionDict V) : RowOutcome V × List String :=
  match d.scope with
  | some sc => if level ∈ sc then buildRowBody gen config raw d else (.skipped, [])
  | none => buildRowBody gen config raw d

/-- Accumulator of one `generate_widgets` pass over the descriptor list: section
bookkeeping, the top-level tree built so far, and the per-key registries. -/
structure PassAcc (V : Type) where
  currentSection : Option String := none
  closed : List (Widget V) := []
  openRows : List (Row V) := []
  log : List (Option String) := []
  events : List RenderEvent := []
  wrappers : Dict WrapperStyle := []
  reset_buttons : Dict Bool := []
  warning_boxes : List (String × Nat) := []
  error_boxes : List (String × Nat) := []

/-- Close the open `SectionFrame`, if any, leaving it packed at the top level. -/
def closeSection {V : Type} (acc : PassAcc V) : PassAcc V :=
  match acc.currentSection with
  | some sec =>
    { acc with
      closed := acc.closed ++ [Widget.frame sec true acc.openRows]
      openRows := []
      currentSection := none }
  | none => acc

/-- `if option.get("section") != current_section`: close the previous group and
open a new one (or return to the root container when the new value is absent). -/
def applySection {V : Type} (acc : PassAcc V) (sec : Option String) : PassAcc V :=
  if sec = acc.currentSection then acc
  else { closeSection acc with currentSection := sec, openRows := [] }

/-- Pack a built row into the active container: the open section frame, or the
root. -/
def pushRow {V : Type} (acc : PassAcc V) (r : Row V) : PassAcc V :=
  match acc.currentSection with
  | some _ => { acc with openRows := acc.openRows ++ [r] }
  | none => { acc with closed := acc.closed ++ [Widget.row r] }

/-- Validation boxes attached for one built row: the generator-produced error
widgets (not yet evaluated), then the `ConfigErrorBox` of an `error` tag
(evaluated once at attach time). -/
def errorAttach {V : Type} (d : OptionDict V) (r : Row V) : List (String × Nat) :=
  List.replicate r.errorWidgetCount (r.key, 0) ++
    (match d.error with | some _ => [(r.key, 1)] | none => [])

/-- One iteration of the render loop: run the try-block body; a failure after the
section bookkeeping still switches sections, a success additionally packs the row
and records its wrapper, reset button and validation boxes. -/
def passStep {V : Type} [DecidableEq V] (gen : WidgetGen V) (config raw : Dict V)
    (level : String) (acc : PassAcc V) (d : OptionDict V) : PassAcc V :=
  match buildRow gen config raw level d with
  | (.skipped, evs) =>
    { acc with events := acc.events ++ evs.map (RenderEvent.resolvedField d.option) }
  | (.earlyFailed lk, evs) =>
    { acc with
      log := acc.log ++ [lk]
      events := acc.events ++ evs.map (RenderEvent.resolvedField d.option) }
  | (.lateFailed lk, evs) =>
    let acc1 := applySection acc d.sectionName
    { acc1 with
      log := acc1.log ++ [some lk]
      events := acc1.events ++ evs.map (RenderEvent.resolvedField d.option) }
  | (.ok r, evs) =>
    let acc1 := applySection acc d.sectionName
    let acc2 := pushRow acc1 r
    { acc2 with
      events := acc2.events ++ evs.map (RenderEvent.resolvedField d.option)
      wrappers := dinsert acc2.wrappers r.key r.style
      reset_buttons := dinsert acc2.reset_buttons r.key r.resetVisible
      warning_boxes := acc2.warning_boxes ++
        (match d.warning with | some _ => [(r.key, 1)] | none => [])
      error_boxes := acc2.error_boxes ++ errorAttach d r }

/-- The full option loop of `generate_widgets`, from an empty render session. -/
def renderPass {V : Type} [DecidableEq V] (gen : WidgetGen V) (config raw : Dict V)
    (level : String) (opts : List (OptionDict V)) : PassAcc V :=
  opts.foldl (passStep gen config raw level) {}

/-- The widget tree a pass accumulated, with the last section frame closed. -/
def finishTree {V : Type} (acc : PassAcc V) : List (Widget V) :=
  (closeSection acc).closed

/-- The widget tree produced by a full render pass. -/
def renderTree {V : Type} [DecidableEq V] (gen : WidgetGen V) (config raw : Dict V)
    (level : String) (opts : List (OptionDict V)) : List (Widget V) :=
  finishTree (renderPass gen config raw level opts)

/-- Flatten the option rows of a widget tree, in order. -/
def rowsOf {V : Type} : List (Widget V) → List (Row V)
  | [] => []
  | .row r :: t => r :: rowsOf t
  | .frame _ _ rs :: t => rs ++ rowsOf t

/-- The row one descriptor contributes to the pass, when its build succeeds. -/
def okRowOf {V : Type} [DecidableEq V] (gen : WidgetGen V) (config raw : Dict V)
    (level : String) (d : OptionDict V) : Option (Row V) :=
  match (buildRow gen config raw level d).1 with
  | .ok r => some r
  | _ => none

/-- The log entry one descriptor contributes, when its build fails. -/
def failLogOf {V : Type} [DecidableEq V] (gen : WidgetGen V) (config raw : Dict V)
    (level : String) (d : OptionDict V) : Option (Option String) :=
  match (buildRow gen config raw level d).1 with
  | .earlyFailed lk => some lk
  | .lateFailed lk => some (some lk)
  | _ => none

/-- Rows of the accumulated tree, counting the open frame's rows. -/
def treeRows {V : Type} (acc : PassAcc V) : List (Row V) :=
  rowsOf acc.closed ++ (match acc.currentSection with
    | some _ => acc.openRows
    | none => [])

theorem rowsOf_append {V : Type} (a b : List (Widget V)) :
    rowsOf (a ++ b) = rowsOf a ++ rowsOf b := by
  induction a with
  | nil => rfl
  | cons w t ih => cases w <;> simp [rowsOf, ih]

theorem treeRows_finishTree {V : Type} (acc : PassAcc V) :
    rowsOf (finishTree acc) = treeRows acc := by
  rcases hs : acc.currentSection with _ | sec <;>
    simp [finishTree, closeSection, treeRows, hs, rowsOf_append, rowsOf]

theorem treeRows_applySection {V : Type} (acc : PassAcc V) (sec : Option String) :
    treeRows (applySection acc sec) = treeRows acc := by
  rw [applySection]
  split
  · rfl
  · rcases hs : acc.currentSection with _ | s <;> rcases sec with _ | s' <;>
      simp [treeRows, closeSection, hs, rowsOf_append, rowsOf]

theorem treeRows_pushRow {V : Type} (acc : PassAcc V) (r : Row V) :
    treeRows (pushRow acc r) = treeRows acc ++ [r] := by
  rcases hs : acc.currentSection with _ | s <;>
    simp [treeRows, pushRow, hs, rowsOf_append, rowsOf]

theorem treeRows_passStep {V : Type} [DecidableEq V] (gen : WidgetGen V)
    (config raw : Dict V) (level : String) (acc : PassAcc V) (d : OptionDict V) :
    treeRows (passStep gen config raw level acc d) =
      treeRows acc ++ (okRowOf gen config raw level d).toList := by
  rcases hb : buildRow gen config raw level d with ⟨out, evs⟩
  cases out with
  | skipped => simp [passStep, hb, okRowOf, treeRows]
  | earlyFailed lk => simp [passStep, hb, okRowOf, treeRows]
  | lateFailed lk =>
    simp only [passStep, hb, okRowOf, treeRows]
    have := treeRows_applySection acc d.sectionName
    simp [treeRows] at this
    simp [this]
  | ok r =>
    simp only [passStep, hb, okRowOf]
    have h1 := treeRows_applySection acc d.sectionName
    have h2 := treeRows_pushRow (applySection acc d.sectionName) r
    simp only [treeRows] at h1 h2 ⊢
    simp [h2, h1]

theorem log_applySection {V : Type} (acc : PassAcc V) (sec : Option String) :
    (applySection acc sec).log = acc.log := by
  rw [applySection]
  split
  · rfl
  · rcases hs : acc.currentSection with _ | s <;> simp [closeSection, hs]

theorem log_pushRow {V : Type} (acc : PassAcc V) (r : Row V) :
    (pushRow acc r).log = acc.log := by
  rcases hs : acc.currentSection with _ | s <;> simp [pushRow, hs]

theorem log_passStep {V : Type} [DecidableEq V] (gen : WidgetGen V)
    (config raw : Dict V) (level : String) (acc : PassAcc V) (d : OptionDict V) :
    (passStep gen config raw level acc d).log =
      acc.log ++ (failLogOf gen config raw level d).toList := by
  rcases hb : buildRow gen config raw level d with ⟨out, evs⟩
  cases out with
  | skipped => simp [passStep, hb, failLogOf]
  | earlyFailed lk => simp [passStep, hb, failLogOf]
  | lateFailed lk => simp [passStep, hb, failLogOf, log_applySection]
  | ok r => simp [passStep, hb, failLogOf, log_applySection, log_pushRow]

theorem pass_rows_aux {V : Type} [DecidableEq V] (gen : WidgetGen V)
    (config raw : Dict V) (level : String) (opts : List (OptionDict V)) :
    ∀ acc : PassAcc V,
      treeRows (opts.foldl (passStep gen config raw level) acc) =
        treeRows acc ++ opts.filterMap (okRowOf gen config raw level) := by
  induction opts with
  | nil => intro acc; simp
  | cons d t ih =>
    intro acc
    rw [List.foldl_cons, ih, treeRows_passStep]
    rcases h : okRowOf gen config raw level d with _ | r <;>
      simp [List.filterMap_cons, h]

theorem pass_log_aux {V : Type} [DecidableEq V] (gen : WidgetGen V)
    (config raw : Dict V) (level : String) (opts : List (OptionDict V)) :
    ∀ acc : PassAcc V,
      (opts.foldl (passStep gen config raw level) acc).log =
        acc.log ++ opts.filterMap (failLogOf gen config raw level) := by
  induction opts with
  | nil => intro acc; simp
  | cons d t ih =>
    intro acc
    rw [List.foldl_cons, ih, log_passStep]
    rcases h : failLogOf gen config raw level d with _ | lk <;>
      simp [List.filterMap_cons, h]

theorem renderTree_rows {V : Type} [DecidableEq V] (gen : WidgetGen V)
    (config raw : Dict V) (level : String) (opts : List (OptionDict V)) :
    rowsOf (renderTree gen config raw level opts) =
      opts.filterMap (okRowOf gen config raw level) := by
  rw [renderTree, treeRows_finishTree, renderPass, pass_rows_aux]
  simp [treeRows, rowsOf]

theorem renderPass_log {V : Type} [DecidableEq V] (gen : WidgetGen V)
    (config raw : Dict V) (level : String) (opts : List (OptionDict V)) :
    (renderPass gen config raw level opts).log =
      opts.filterMap (failLogOf gen config raw level) := by
  rw [renderPass, pass_log_aux]
  rfl

theorem buildRowBody_ok_inv {V : Type} [DecidableEq V] (gen : WidgetGen V)
    (config raw : Dict V) (d : OptionDict V) (r : Row V) (evs : List String)
    (h : buildRowBody gen config raw d = (.ok r, evs)) :
    r.value = dget config r.key ∧
    r.style = (if dcontains raw r.key then
        ({ fontWeight := "bold", fontStyle := "normal" } : WrapperStyle)
      else if r.value ≠ r.default then
        { fontWeight := "normal", fontStyle := "italic" }
      else defaultWrapperStyle) ∧
    ∃ rc : OptionDict V × List String,
      resolveChoices (resolveVisible d).1 = some rc ∧
      r.passedOption = (resolveCondition rc.1).1 ∧
      evs = (resolveVisible d).2 ++ rc.2 ++ (resolveCondition rc.1).2 := by
  cases hopt : d.option with
  | none => simp [buildRowBody, hopt] at h
  | some key =>
    cases hvv : visibleValue (resolveVisible d).1 with
    | false => simp [buildRowBody, hopt, hvv] at h
    | true =>
      rcases hrc : resolveChoices (resolveVisible d).1 with _ | rc
      · simp [buildRowBody, hopt, hvv, hrc] at h
      · rcases hgen : gen (resolveCondition rc.1).1 (dget config key) with e | res
        · simp [buildRowBody, hopt, hvv, hrc, hgen] at h
        · cases hlab : (resolveCondition rc.1).1.label with
          | none => simp [buildRowBody, hopt, hvv, hrc, hgen, hlab] at h
          | some label =>
            simp only [buildRowBody, hopt, hvv, hrc, hgen, hlab, Bool.true_eq_false,
              if_false, Prod.mk.injEq, RowOutcome.ok.injEq] at h
            obtain ⟨h1, h2⟩ := h
            subst h1
            refine ⟨rfl, ?_, rc, rfl, rfl, by simpa using h2.symm⟩
            by_cases hcont : dcontains raw key = true <;>
              simp [hcont, set_style_property, defaultWrapperStyle]

theorem buildRow_ok_inv {V : Type} [DecidableEq V] (gen : WidgetGen V) (config raw : Dict V)
    (level : String) (d : OptionDict V) (r : Row V) (evs : List String)
    (h : buildRow gen config raw level d = (.ok r, evs)) :
    r.value = dget config r.key ∧
    r.style = (if dcontains raw r.key then
        ({ fontWeight := "bold", fontStyle := "normal" } : WrapperStyle)
      else if r.value ≠ r.default then
        { fontWeight := "normal", fontStyle := "italic" }
      else defaultWrapperStyle) ∧
    ∃ rc : OptionDict V × List String,
      resolveChoices (resolveVisible d).1 = some rc ∧
      r.passedOption = (resolveCondition rc.1).1 ∧
      evs = (resolveVisible d).2 ++ rc.2 ++ (resolveCondition rc.1).2 := by
  have hbody : buildRowBody gen config raw d = (.ok r, evs) := by
    rcases hscope : d.scope with _ | sc
    · simpa [buildRow, hscope] using h
    · simp only [buildRow, hscope] at h
      by_cases hmem : level ∈ sc
      · rwa [if_pos hmem] at h
      · rw [if_neg hmem] at h
        exact absurd h (by simp)
  exact buildRowBody_ok_inv gen config raw d r evs hbody

/-- The claim's weight classification for one rendered row, from the layer state:
bold when the key is in the raw config, italic when it is not but the effective
value differs from the generator's reported default, plain otherwise. -/
def weightSpecOK {V : Type} [DecidableEq V] (config raw : Dict V) (r : Row V) : Bool :=
  decide (r.value = dget config r.key) &&
  (if dcontains raw r.key then
    decide (r.style = { fontWeight := "bold", fontStyle := "normal" })
  else if r.value ≠ r.default then
    decide (r.style = { fontWeight := "normal", fontStyle := "italic" })
  else decide (r.style = defaultWrapperStyle))

/-- C1: every option row produced by a render pass carries the weight classified
from the layer state at render time — bold if its key is in the raw config, italic
if the key is absent from raw but the effective value differs from the widget
generator's reported default, plain otherwise (and the row's recorded value is the
effective config value). -/
theorem weightSpecOK_of_inv {V : Type} [DecidableEq V] (config raw : Dict V) (r : Row V)
    (hval : r.value = dget config r.key)
    (hsty : r.style = (if dcontains raw r.key then
        ({ fontWeight := "bold", fontStyle := "normal" } : WrapperStyle)
      else if r.value ≠ r.default then
        { fontWeight := "normal", fontStyle := "italic" }
      else defaultWrapperStyle)) :
    weightSpecOK config raw r = true := by
  rw [weightSpecOK, hsty, ← hval]
  by_cases hcont : dcontains raw r.key = true
  · simp [hcont]
  · rw [Bool.not_eq_true] at hcont
    by_cases hne : r.value = r.default
    · simp [hcont, hne]
    · simp [hcont, hne]

theorem render_weight_classification {V : Type} [DecidableEq V] (gen : WidgetGen V)
    (config raw : Dict V) (level : String) (opts : List (OptionDict V)) :
    (rowsOf (renderTree gen config raw level opts)).all (weightSpecOK config raw) = true := by
  rw [renderTree_rows, List.all_eq_true]
  intro r hr
  rw [List.mem_filterMap] at hr
  obtain ⟨d, _, hok⟩ := hr
  rw [okRowOf] at hok
  rcases hb : (buildRow gen config raw level d) with ⟨out, evs⟩
  rw [hb] at hok
  cases out with
  | skipped => simp at hok
  | earlyFailed lk => simp at hok
  | lateFailed lk => simp at hok
  | ok rr =>
    simp at hok
    subst hok
    obtain ⟨hval, hsty, -⟩ := buildRow_ok_inv gen config raw level d rr evs hb
    exact weightSpecOK_of_inv config raw rr hval hsty

/-- C5: per-row failure isolation — a render pass produces exactly the rows of the
descriptors whose builds succeed (each failed or skipped descriptor omits only its
own row, the pass continuing with the rest), and logs exactly the option keys of
the descriptors whose builds raised. -/
theorem render_isolates_row_failures {V : Type} [DecidableEq V] (gen : WidgetGen V)
    (config raw : Dict V) (level : String) (opts : List (OptionDict V)) :
    rowsOf (renderTree gen config raw level opts) =
      opts.filterMap (okRowOf gen config raw level) ∧
    (renderPass gen config raw level opts).log =
      opts.filterMap (failLogOf gen config raw level) :=
  ⟨renderTree_rows gen config raw level opts, renderPass_log gen config raw level opts⟩

theorem resolveVisible_choices {V : Type} (d : OptionDict V) :
    (resolveVisible d).1.choices = d.choices := by
  unfold resolveVisible; split <;> rfl

theorem resolveVisible_condition {V : Type} (d : OptionDict V) :
    (resolveVisible d).1.condition = d.condition := by
  unfold resolveVisible; split <;> rfl

theorem resolveVisible_type {V : Type} (d : OptionDict V) :
    (resolveVisible d).1.type = d.type := by
  unfold resolveVisible; split <;> rfl

theorem resolveVisible_snd_counts {V : Type} (d : OptionDict V) :
    (resolveVisible d).2.count "choices" = 0 ∧ (resolveVisible d).2.count "condition" = 0 := by
  unfold resolveVisible; split <;> exact ⟨rfl, rfl⟩

theorem resolveChoices_preserves {V : Type} (x : OptionDict V) (rc : OptionDict V × List String)
    (h : resolveChoices x = some rc) :
    rc.1.visible = x.visible ∧ rc.1.condition = x.condition ∧
    rc.2.count "visible" = 0 ∧ rc.2.count "condition" = 0 := by
  unfold resolveChoices at h
  split at h
  · split at h
    · exact absurd h (by simp)
    · split at h
      · obtain rfl := Option.some.inj h
        exact ⟨rfl, rfl, rfl, rfl⟩
      · obtain rfl := Option.some.inj h
        exact ⟨rfl, rfl, rfl, rfl⟩
  · obtain rfl := Option.some.inj h
    exact ⟨rfl, rfl, rfl, rfl⟩

theorem resolveCondition_preserves {V : Type} (x : OptionDict V) :
    (resolveCondition x).1.visible = x.visible ∧ (resolveCondition x).1.choices = x.choices ∧
    (resolveCondition x).2.count "visible" = 0 ∧ (resolveCondition x).2.count "choices" = 0 := by
  unfold resolveCondition; split <;> exact ⟨rfl, rfl, rfl, rfl⟩

/-- C7 (amended): for every built row, a callable `visible` or `condition` field is
resolved to its produced value exactly once before the descriptor is read by the
widget generator, and so is a callable `choices` field unless the descriptor's
`type` is `choice_with_search` — in which case the callable is handed to the
generator unresolved and no resolution happens. -/
theorem producers_resolved_once {V : Type} [DecidableEq V] (gen : WidgetGen V)
    (config raw : Dict V) (level : String) (d : OptionDict V) (r : Row V)
    (evs : List String) (fv fc : Unit → Bool) (fch : Unit → List String)
    (h : buildRow gen config raw level d = (.ok r, evs)) :
    (d.visible = some (.producer fv) →
      r.passedOption.visible = some (.lit (fv ())) ∧ evs.count "visible" = 1) ∧
    (d.condition = some (.producer fc) →
      r.passedOption.condition = some (.lit (fc ())) ∧ evs.count "condition" = 1) ∧
    (d.choices = some (.producer fch) → d.type ≠ some "choice_with_search" →
      r.passedOption.choices = some (.lit (fch ())) ∧ evs.count "choices" = 1) ∧
    (d.choices = some (.producer fch) → d.type = some "choice_with_search" →
      r.passedOption.choices = some (.producer fch) ∧ evs.count "choices" = 0) := by
  obtain ⟨-, -, rc, hrc, hpass, hevs⟩ := buildRow_ok_inv gen config raw level d r evs h
  obtain ⟨hcv, hcc, hc1, hc2⟩ := resolveChoices_preserves _ rc hrc
  obtain ⟨hdv, hdc, hd1, hd2⟩ := resolveCondition_preserves (V := V) rc.1
  refine ⟨?_, ?_, ?_, ?_⟩
  · intro hvis
    have hrv : resolveVisible d = ({ d with visible := some (.lit (fv ())) }, ["visible"]) := by
      simp [resolveVisible, hvis]
    constructor
    · rw [hpass, hdv, hcv, hrv]
    · rw [hevs, List.count_append, List.count_append, hrv, hc1, hd1]
      rfl
  · intro hcond
    have hrcc : rc.1.condition = some (.producer fc) := by
      rw [hcc, resolveVisible_condition, hcond]
    have hrcnd : resolveCondition rc.1 =
        ({ rc.1 with condition := some (.lit (fc ())) }, ["condition"]) := by
      simp [resolveCondition, hrcc]
    constructor
    · rw [hpass, hrcnd]
    · rw [hevs, List.count_append, List.count_append, hrcnd,
        (resolveVisible_snd_counts d).2, hc2]
      rfl
  · intro hch htype
    have hxc : (resolveVisible d).1.choices = some (.producer fch) := by
      rw [resolveVisible_choices, hch]
    rcases hxt : d.type with _ | t
    · have hnone : resolveChoices (resolveVisible d).1 = none := by
        simp [resolveChoices, hxc, resolveVisible_type, hxt]
      rw [hnone] at hrc
      exact absurd hrc (by simp)
    · have ht : t ≠ "choice_with_search" := by
        intro hteq
        exact htype (by rw [hxt, hteq])
      have hsome : resolveChoices (resolveVisible d).1 =
          some ({ (resolveVisible d).1 with choices := some (.lit (fch ())) }, ["choices"]) := by
        simp [resolveChoices, hxc, resolveVisible_type, hxt, ht]
      rw [hsome] at hrc
      obtain rfl := Option.some.inj hrc
      constructor
      · rw [hpass, hdc]
      · rw [hevs, List.count_append, List.count_append, hd2,
          (resolveVisible_snd_counts d).1]
        rfl
  · intro hch htype
    have hxc : (resolveVisible d).1.choices = some (.producer fch) := by
      rw [resolveVisible_choices, hch]
    have hsome : resolveChoices (resolveVisible d).1 = some ((resolveVisible d).1, []) := by
      simp [resolveChoices, hxc, resolveVisible_type, htype]
    rw [hsome] at hrc
    obtain rfl := Option.some.inj hrc
    constructor
    · rw [hpass, hdc]
      exact hxc
    · rw [hevs, List.count_append, List.count_append, hd2,
        (resolveVisible_snd_counts d).1]
      rfl

/-- The opaque widget generator used at the concrete instances: always succeeds,
reporting no default and no extra error widgets. -/
def cexGen : WidgetGen Nat := fun _ _ =>
  .ok { defaultValue := none, tooltipDefault := none, errorWidgets := 0 }

/-- A `choice_with_search` descriptor whose `choices` field is a producer. -/
def cexSearchDesc : OptionDict Nat :=
  { option := some "ch", type := some "choice_with_search", label := some "Choices",
    choices := some (.producer fun _ => ["a", "b"]) }

/-- Whether the built row's descriptor reached the generator with a still-callable
`choices` field; `none` when no row was built. -/
def passedChoicesUnresolved {V : Type} (o : RowOutcome V × List String) : Option Bool :=
  match o.1 with
  | .ok r => some ((r.passedOption.choices.map FieldVal.isProducer).getD false)
  | _ => none

/-- C7 counterexample: on a `choice_with_search` descriptor a callable `choices`
field reaches the widget generator unresolved, with no resolution event recorded —
the render pass does not resolve every producer field before the generator reads
it. -/
theorem producers_resolution_counterexample :
    passedChoicesUnresolved (buildRow cexGen [] [] "game" cexSearchDesc) = some true ∧
    (buildRow cexGen [] [] "game" cexSearchDesc).2 = [] :=
  ⟨rfl, rfl⟩

/-- A descriptor whose `visible`, `choices` and `condition` fields are all
producers, with an ordinary `type`. -/
def cexProducersDesc : OptionDict Nat :=
  { option := some "p", type := some "bool", label := some "P",
    visible := some (.producer fun _ => true),
    choices := some (.producer fun _ => ["x"]),
    condition := some (.producer fun _ => false) }

/-- `cexProducersDesc` after the render pass resolved its producer fields. -/
def cexResolvedDesc : OptionDict Nat :=
  { option := some "p", type := some "bool", label := some "P",
    visible := some (.lit true), choices := some (.lit ["x"]),
    condition := some (.lit false) }

/-- The row built from `cexProducersDesc` over empty configs. -/
def cexProducersRow : Row Nat :=
  { key := "p", label := "P", helptext := "", advanced := false,
    style := defaultWrapperStyle, value := none, default := none,
    sensitive := false, resetVisible := false, errorWidgetCount := 0,
    passedOption := cexResolvedDesc, visibleFlag := true }

theorem producers_resolved_once_witness :
    cexProducersRow.passedOption.visible = some (.lit true) ∧
    cexProducersRow.passedOption.condition = some (.lit false) ∧
    cexProducersRow.passedOption.choices = some (.lit ["x"]) ∧
    (["visible", "choices", "condition"] : List String).count "visible" = 1 ∧
    (["visible", "choices", "condition"] : List String).count "choices" = 1 ∧
    (["visible", "choices", "condition"] : List String).count "condition" = 1 := by
  have h := producers_resolved_once cexGen [] [] "game" cexProducersDesc cexProducersRow
    ["visible", "choices", "condition"] (fun _ => true) (fun _ => false) (fun _ => ["x"]) rfl
  exact ⟨(h.1 rfl).1, (h.2.1 rfl).1, (h.2.2.1 rfl (by decide)).1, (h.1 rfl).2,
    (h.2.2.1 rfl (by decide)).2, (h.2.1 rfl).2⟩

/-- `str.lower()`. -/
def lowerStr (s : String) : String := ⟨s.data.map Char.toLower⟩

/-- `pat == needle` head test for the substring search. -/
def leadsWith : List Char → List Char → Bool
  | [], _ => true
  | _ :: _, [] => false
  | a :: as, b :: bs => a == b && leadsWith as bs

/-- Contiguous-sublist search over character lists. -/
def hasSubList (pat : List Char) : List Char → Bool
  | [] => leadsWith pat []
  | b :: bs => leadsWith pat (b :: bs) || hasSubList pat bs

/-- Python's `pat in hay` substring test. -/
def strIn (pat hay : String) : Bool := hasSubList pat.data hay.data

theorem lowerStr_empty_iff (s : String) : lowerStr s = "" ↔ s = "" := by
  rcases s with ⟨l⟩
  cases l with
  | nil => exact ⟨fun _ => rfl, fun _ => rfl⟩
  | cons c cs =>
    constructor
    · intro h
      exact absurd (String.data_eq_of_eq h) (by simp [lowerStr])
    · intro h
      exact absurd (String.data_eq_of_eq h) (by simp)

/-- The per-row body of `update_option_visibility.update_widgets`: advanced gate,
then the lowered-filter substring test against label and helptext. -/
def updateRowCode {V : Type} (adv : Bool) (filt : String) (r : Row V) : Row V :=
  let filter_text := lowerStr filt
  let wv := adv || !r.advanced
  let wv :=
    if wv && !(filter_text == "") then
      if !(strIn filter_text (lowerStr r.label)) && !(strIn filter_text (lowerStr r.helptext))
      then false
      else wv
    else wv
  { r with visibleFlag := wv }

/-- `update_widgets` over the rows inside a section frame, returning the updated
rows and the count of visible ones. -/
def updateRows {V : Type} (adv : Bool) (filt : String) : List (Row V) → List (Row V) × Nat
  | [] => ([], 0)
  | r :: t =>
    let r' := updateRowCode adv filt r
    let p := updateRows adv filt t
    (r' :: p.1, (if r'.visibleFlag then 1 else 0) + p.2)

/-- `update_widgets` over the `ConfigBox` children: rows are shown or hidden per
the advanced/filter state, a section frame is shown iff it contains a visible
row. -/
def updateWidgets {V : Type} (adv : Bool) (filt : String) :
    List (Widget V) → List (Widget V) × Nat
  | [] => ([], 0)
  | .row r :: t =>
    let r' := updateRowCode adv filt r
    let p := updateWidgets adv filt t
    (.row r' :: p.1, (if r'.visibleFlag then 1 else 0) + p.2)
  | .frame sec _ rows :: t =>
    let q := updateRows adv filt rows
    let p := updateWidgets adv filt t
    (.frame sec (decide (0 < q.2)) q.1 :: p.1, q.2 + p.2)

/-- `ConfigBox.update_option_visibility`: recompute every child's visibility from
the current advanced/filter state. -/
def update_option_visibility {V : Type} (s : ConfigBoxState V) : ConfigBoxState V :=
  { s with children := (updateWidgets s.advanced_visibility s.filter s.children).1 }

/-- `show_all()` over the built tree: every row and frame becomes visible (reset
buttons keep their own no-show-all state, held in `Row.resetVisible`). -/
def showAllW {V : Type} : List (Widget V) → List (Widget V)
  | [] => []
  | .row r :: t => .row { r with visibleFlag := true } :: showAllW t
  | .frame sec _ rows :: t =>
    .frame sec true (rows.map fun r => { r with visibleFlag := true }) :: showAllW t

/-- Whether a render event is the read of the advanced-options application
setting. -/
def isReadEvent : RenderEvent → Bool
  | .readAdvancedSetting => true
  | _ => false

/-- `ConfigBox.generate_widgets`: on an empty schema show the placeholder and stop;
otherwise run the pass, merge its bookkeeping into the box, show the whole tree,
read the advanced-options setting, and apply the visibility engine through the
`advanced_visibility` setter. Returns the render events of this pass. -/
def generate_widgets {V : Type} [DecidableEq V] (s : ConfigBoxState V) (gen : WidgetGen V)
    (readSetting : String → Option String) : ConfigBoxState V × List RenderEvent :=
  if s.options.isEmpty then ({ s with noOptionsShown := true }, [])
  else
    let acc := renderPass gen s.config s.raw_config s.config_level s.options
    let s1 : ConfigBoxState V :=
      { s with
        children := showAllW (s.children ++ finishTree acc)
        wrappers := acc.wrappers ++ s.wrappers
        reset_buttons := acc.reset_buttons ++ s.reset_buttons
        warning_boxes := s.warning_boxes ++ acc.warning_boxes
        error_boxes := s.error_boxes ++ acc.error_boxes
        log := s.log ++ acc.log }
    let show_advanced := readSetting "show_advanced_options" == some "True"
    let s2 := update_option_visibility { s1 with advanced_visibility := show_advanced }
    (s2, acc.events ++ [RenderEvent.readAdvancedSetting])

/-- The claim's visibility formula for one leaf row: (advanced visibility on OR the
row is not tagged advanced) AND (the filter text is empty OR it occurs
case-insensitively in the row's label or helptext). -/
def specRowVisible {V : Type} (adv : Bool) (filt : String) (r : Row V) : Bool :=
  (adv || !r.advanced) &&
    (filt == "" || strIn (lowerStr filt) (lowerStr r.label) ||
      strIn (lowerStr filt) (lowerStr r.helptext))

/-- The claim's visibility recomputation: each leaf row gets the formula above, a
section frame is visible iff at least one of its child rows is. -/
def specWidgetVisibility {V : Type} (adv : Bool) (filt : String) : Widget V → Widget V
  | .row r => .row { r with visibleFlag := specRowVisible adv filt r }
  | .frame sec _ rows =>
    .frame sec (rows.any (specRowVisible adv filt))
      (rows.map fun r => { r with visibleFlag := specRowVisible adv filt r })

theorem lowerStr_beq_empty (s : String) : (lowerStr s == "") = (s == "") :=
  beq_eq_beq.mpr (lowerStr_empty_iff s)

theorem updateRowCode_eq {V : Type} (adv : Bool) (filt : String) (r : Row V) :
    updateRowCode adv filt r = { r with visibleFlag := specRowVisible adv filt r } := by
  simp only [updateRowCode, specRowVisible]
  congr 1
  rw [lowerStr_beq_empty]
  generalize (adv || !r.advanced) = A
  generalize (filt == "") = E
  generalize strIn (lowerStr filt) (lowerStr r.label) = L
  generalize strIn (lowerStr filt) (lowerStr r.helptext) = H
  cases A <;> cases E <;> cases L <;> cases H <;> rfl

theorem updateRows_eq {V : Type} (adv : Bool) (filt : String) (rs : List (Row V)) :
    updateRows adv filt rs = (rs.map (updateRowCode adv filt),
      rs.countP (fun r => (updateRowCode adv filt r).visibleFlag)) := by
  induction rs with
  | nil => rfl
  | cons r t ih => simp [updateRows, ih, List.countP_cons, Nat.add_comm]

theorem updateRows_snd_pos {V : Type} (adv : Bool) (filt : String) (rs : List (Row V)) :
    decide (0 < (updateRows adv filt rs).2) = rs.any (specRowVisible adv filt) := by
  rw [updateRows_eq]
  rw [Bool.eq_iff_iff]
  simp only [decide_eq_true_eq, List.countP_pos_iff, List.any_eq_true]
  constructor
  · rintro ⟨r, hr, hflag⟩
    refine ⟨r, hr, ?_⟩
    rw [updateRowCode_eq] at hflag
    exact hflag
  · rintro ⟨r, hr, hflag⟩
    refine ⟨r, hr, ?_⟩
    rw [updateRowCode_eq]
    exact hflag

/-- C6: applied to any widget tree and advanced/filter state, the visibility
recomputation makes each leaf row visible iff (advanced visibility is on OR the row
is not tagged advanced) AND (the filter text is empty OR occurs case-insensitively
in its label or helptext), and makes each section frame visible iff at least one of
its child rows is visible. -/
theorem update_option_visibility_spec {V : Type} (s : ConfigBoxState V) :
    (update_option_visibility s).children =
      s.children.map (specWidgetVisibility s.advanced_visibility s.filter) := by
  rw [update_option_visibility]
  generalize s.advanced_visibility = adv
  generalize s.filter = filt
  show (updateWidgets adv filt s.children).1 = _
  induction s.children with
  | nil => rfl
  | cons w t ih =>
    cases w with
    | row r => simp [updateWidgets, ih, specWidgetVisibility, updateRowCode_eq]
    | frame sec vis rows =>
      have hpos := updateRows_snd_pos adv filt rows
      rw [updateRows_eq] at hpos
      have hmap : List.map (updateRowCode adv filt) rows =
          List.map (fun r => ({ r with visibleFlag := specRowVisible adv filt r } : Row V)) rows :=
        List.map_congr_left (fun r _ => updateRowCode_eq adv filt r)
      simp only [updateWidgets, specWidgetVisibility, List.map_cons]
      rw [updateRows_eq]
      simp only [ih, hpos, hmap]

theorem events_applySection {V : Type} (acc : PassAcc V) (sec : Option String) :
    (applySection acc sec).events = acc.events := by
  rw [applySection]
  split
  · rfl
  · rcases hs : acc.currentSection with _ | s <;> simp [closeSection, hs]

theorem events_pushRow {V : Type} (acc : PassAcc V) (r : Row V) :
    (pushRow acc r).events = acc.events := by
  rcases hs : acc.currentSection with _ | s <;> simp [pushRow, hs]

theorem countRead_resolved (k : Option String) (evs : List String) :
    (evs.map (RenderEvent.resolvedField k)).countP isReadEvent = 0 := by
  rw [List.countP_map]
  simp [Function.comp, isReadEvent, List.countP_eq_zero]

theorem events_passStep_countRead {V : Type} [DecidableEq V] (gen : WidgetGen V)
    (config raw : Dict V) (level : String) (acc : PassAcc V) (d : OptionDict V) :
    (passStep gen config raw level acc d).events.countP isReadEvent =
      acc.events.countP isReadEvent := by
  rcases hb : buildRow gen config raw level d with ⟨out, evs⟩
  cases out <;>
    simp [passStep, hb, List.countP_append, countRead_resolved, events_applySection,
      events_pushRow] <;>
    intro a _ <;> rfl

theorem renderPass_countRead {V : Type} [DecidableEq V] (gen : WidgetGen V)
    (config raw : Dict V) (level : String) (opts : List (OptionDict V)) :
    (renderPass gen config raw level opts).events.countP isReadEvent = 0 := by
  rw [renderPass]
  have h : ∀ acc : PassAcc V,
      (opts.foldl (passStep gen config raw level) acc).events.countP isReadEvent =
        acc.events.countP isReadEvent := by
    induction opts with
    | nil => intro acc; rfl
    | cons d t ih =>
      intro acc
      rw [List.foldl_cons, ih, events_passStep_countRead]
  rw [h]
  rfl

/-- C8: on a non-empty schema each `generate_widgets` pass reads the
advanced-options application setting exactly once, uses that value as the
advanced-visibility state, and ends by making the whole tree visible and applying
the visibility engine with the just-read advanced value and the current filter
text. -/
theorem generate_widgets_reads_setting_once {V : Type} [DecidableEq V]
    (s : ConfigBoxState V) (gen : WidgetGen V) (readSetting : String → Option String)
    (h : s.options.isEmpty = false) :
    (generate_widgets s gen readSetting).2.countP isReadEvent = 1 ∧
    (generate_widgets s gen readSetting).1.advanced_visibility =
      (readSetting "show_advanced_options" == some "True") ∧
    (generate_widgets s gen readSetting).1.filter = s.filter ∧
    (generate_widgets s gen readSetting).1.children =
      (updateWidgets (readSetting "show_advanced_options" == some "True") s.filter
        (showAllW (s.children ++
          finishTree (renderPass gen s.config s.raw_config s.config_level s.options)))).1 := by
  rw [generate_widgets, if_neg (by rw [h]; exact Bool.false_ne_true)]
  have hc : ((renderPass gen s.config s.raw_config s.config_level s.options).events ++
      [RenderEvent.readAdvancedSetting]).countP isReadEvent = 1 := by
    rw [List.countP_append, renderPass_countRead]
    rfl
  exact ⟨hc, rfl, rfl, rfl⟩

/-- A plain descriptor with no producers, used at concrete render instances. -/
def cexPlainDesc : OptionDict Nat :=
  { option := some "a", type := some "bool", label := some "A" }

/-- A concrete `ConfigBox` with a one-descriptor schema. -/
def cexRenderState : ConfigBoxState Nat :=
  { config_level := "game"
    options := [cexPlainDesc]
    config := [("a", 2)]
    raw_config := []
    ancestors := [("a", 2)]
    reset_buttons := []
    wrappers := []
    warning_boxes := []
    error_boxes := []
    advanced_visibility := false
    filter := ""
    children := []
    rebuilds := []
    log := []
    noOptionsShown := false }

/-- Application settings with advanced options enabled. -/
def cexReadSetting : String → Option String := fun _ => some "True"

theorem generate_widgets_reads_setting_once_witness :
    cexRenderState.options.isEmpty = false ∧
    (generate_widgets cexRenderState cexGen cexReadSetting).2.countP isReadEvent = 1 ∧
    (generate_widgets cexRenderState cexGen cexReadSetting).1.advanced_visibility = true := by
  refine ⟨rfl, ?_, ?_⟩
  · exact (generate_widgets_reads_setting_once cexRenderState cexGen cexReadSetting rfl).1
  · exact ((generate_widgets_reads_setting_once cexRenderState cexGen
      cexReadSetting rfl).2.1).trans rfl

end LutrisBoxes
